import Mathlib

/-!
Verification development for the tpQtLib bootstrapper
(`source/tpQtLib/__init__.py`) and the resource loader
(`source/tpQtLib/core/resource.py`).

The Python code is shallowly embedded: the process-wide mutable state
(the ordered registry `tpQtLib.loaded_modules`, the reload queue
`tpQtLib.reload_modules`, the logger output and the trace of registry
assignments) is threaded explicitly as a `St` value, the external world
(filesystem contents and the behaviour of `importlib.import_module`) is
a `Cfg` record of functions, and Python exceptions that escape are an
`Except` error.  Machine strings are Lean `String`s (a wrapper around
`List Char`, which matches Python's sequence-of-characters view for the
ASCII-style identifiers and paths involved here).
-/

/-- Severity of a log record emitted through the `tpQtLib` logger. -/
inductive LogLevel where
  | debug
  | warning
  deriving DecidableEq, Repr

/-- A Python module object as far as the bootstrapper observes it:
its `__name__` attribute, the directory of its `__file__` (the code only
ever stores `os.path.dirname(mod.__file__)`), its optional `order`
attribute (a list of hint strings) and whether it has a `no_reload`
attribute. -/
structure PyModule where
  name : String
  fileDir : String
  order : Option (List String)
  noReload : Bool
  deriving DecidableEq, Repr

/-- Outcome of `importlib.import_module` on a given qualified name:
a module object, an exception of the caught classes
(`ImportError`, `AttributeError`), or any other exception (which the
code does not catch). -/
inductive ImportOutcome where
  | ok (m : PyModule)
  | caught
  | fatal
  deriving DecidableEq, Repr

/-- The external world fixed for one run: the path separator that
`os.path` uses on the platform (`'\\'` on Windows, `'/'` on POSIX), the
children `pkgutil.iter_modules([dir])` yields for a directory string
(pairs of simple name and `ispkg` flag), the behaviour of
`importlib.import_module` per qualified name, and `tpQtLib.__path__[0]`. -/
structure Cfg where
  sep : Char
  fsChildren : String → List (String × Bool)
  env : String → ImportOutcome
  tpRoot : String

/-- The mutable process state of the bootstrapper:
`loaded_modules` is the `OrderedDict` mapping a qualified name to the
pair (directory of the module file, module handle), kept as an
insertion-ordered association list; `reload_modules` is the reload
queue; `writes` records every assignment
`loaded_modules[k] = [dir, mod]` in the order performed; `log` records
logger output. -/
structure St where
  loaded_modules : List (String × String × PyModule)
  reload_modules : List PyModule
  writes : List (String × PyModule)
  log : List (LogLevel × String)
  deriving DecidableEq, Repr

/-- Python exceptions that escape the bootstrapper; identified by the
qualified name whose import raised. -/
abbrev PyExn := String

/-! ### Small Python-semantics helpers -/

/-- `xs.insert(idx, x)` of a Python list: the index is clamped into
range (negative indices count from the end, clamped at 0; indices past
the end append). -/
def pyInsert (xs : List α) (idx : Int) (x : α) : List α :=
  let j : Nat :=
    if idx < 0 then ((xs.length : Int) + idx).toNat
    else min idx.toNat xs.length
  xs.take j ++ x :: xs.drop j

/-- Occurrence check of `o` inside `n` on character lists, the meaning
of Python's `o in n` on strings (the empty string occurs in every
string). -/
def subOccurs (o : List Char) : List Char → Bool
  | [] => o.isEmpty
  | c :: t => o.isPrefixOf (c :: t) || subOccurs o t

/-- Python `o in n` for strings. -/
def strIn (o n : String) : Bool := subOccurs o.data n.data

/-- Python `n.endswith(o)`. -/
def pyEndsWith (n o : String) : Bool := o.data.isSuffixOf n.data

/-- Keep the first occurrence of every element, preserving order; the
meaning of the `[x for x in xs if not (x in seen or seen.add(x))`
idiom used on the ordered name and path lists. -/
def dedupFirst (xs : List String) : List String :=
  xs.foldl (fun acc x => if acc.contains x then acc else acc ++ [x]) []

/-- Drop `pre` from the front of `s` when it is a prefix. -/
def strDropPre (pre s : String) : Option String :=
  if pre.data.isPrefixOf s.data then some ⟨s.data.drop pre.data.length⟩ else none

/-- Replace every (left-to-right, non-overlapping) occurrence of `"//"`
by the single character `sep`; how `os.path` normalisation renders the
`dir + "//" + name` paths this code builds relative to a root, using
the platform separator. -/
def replSlashes (sep : Char) : List Char → List Char
  | [] => []
  | [c] => [c]
  | c :: c' :: t =>
    if c = '/' ∧ c' = '/' then sep :: replSlashes sep t
    else c :: replSlashes sep (c' :: t)

/-- `os.path.relpath(p, start)`, modelled for the inputs this program
produces: every explored path is `start + "//" + rest`, for which
`relpath` returns `rest` with the doubled separators collapsed to the
platform separator.  Other inputs (which arise only when a
non-descendant string is passed) are returned unchanged. -/
def pyRelpath (sep : Char) (p start : String) : String :=
  match strDropPre (start ++ "//") p with
  | some rest => ⟨replSlashes sep rest.data⟩
  | none => p

/-- Python `s.replace('\\', '.')`: the pattern is a single character,
so this is a character map. -/
def replBackslashDot (s : String) : String :=
  ⟨s.data.map (fun c => if c = '\\' then '.' else c)⟩

/-- Character lists joined by the doubled separator `"//"` — the shape
of every directory string this program builds below a root (each
recursive call appends `"//" + child`). -/
def joinSlashes : List (List Char) → List Char
  | [] => []
  | [c] => c
  | c :: cs => c ++ '/' :: '/' :: joinSlashes cs

/-- Character lists joined by a single separator character — the shape
`os.path.relpath` output (and, for `'.'`, a dotted qualified name)
takes over the same components. -/
def joinChar (sep : Char) : List (List Char) → List Char
  | [] => []
  | [c] => c
  | c :: cs => c ++ sep :: joinChar sep cs

/-- Path components joined by `"//"`, as a string. -/
def slashJoin (cs : List String) : String :=
  ⟨joinSlashes (cs.map String.data)⟩

/-- Path components joined by `'.'`, as a string: the dotted relative
path over the given components. -/
def dotJoin (cs : List String) : String :=
  ⟨joinChar '.' (cs.map String.data)⟩

/-- Fold a fallible loop body over a list, propagating the first
uncaught exception — the meaning of a Python `for` loop whose body may
raise. -/
def exceptFold (f : St → α → Except PyExn St) : St → List α → Except PyExn St
  | st, [] => .ok st
  | st, a :: l =>
    match f st a with
    | .error e => .error e
    | .ok st' => exceptFold f st' l

/-- Keys of the registry, in insertion order. -/
def regKeys (d : List (String × String × PyModule)) : List String :=
  d.map (·.1)

/-- `name in cls.loaded_modules.keys()`. -/
def containsKey (d : List (String × String × PyModule)) (k : String) : Bool :=
  (regKeys d).contains k

/-- `cls.loaded_modules[k]` (the stored `[dir, mod]` value). -/
def regGet (d : List (String × String × PyModule)) (k : String) : Option (String × PyModule) :=
  (d.find? (fun e => e.1 == k)).map (·.2)

/-- `cls.loaded_modules[k] = v` on the `OrderedDict`: overwrite in
place when the key is present, append otherwise. -/
def odSet (d : List (String × String × PyModule)) (k : String) (v : String × PyModule) :
    List (String × String × PyModule) :=
  if containsKey d k then
    d.map (fun e => if e.1 == k then (k, v) else e)
  else
    d ++ [(k, v)]

/-! ### The bootstrapper (`source/tpQtLib/__init__.py`) -/

/-- The qualified name `_explore_package` derives for the child `m` of
directory `dir` (line 66 of the source). -/
def entryName (cfg : Cfg) (dir m : String) : String :=
  "tpQtLib." ++ replBackslashDot (pyRelpath cfg.sep (dir ++ "//" ++ m) cfg.tpRoot)

/-- The path `_explore_package` records for the child `m` of directory
`dir` (line 65 of the source). -/
def entryPath (dir m : String) : String :=
  dir ++ "//" ++ m

/-- `tpQtLib._explore_package(module_name, only_packages)` (lines
50–78).  For each child yielded by `pkgutil.iter_modules` the code
builds `mod_path = name + "//" + m_name` and
`mod_name = 'tpQtLib.' + os.path.relpath(mod_path,
tpQtLib.__path__[0]).replace('\\', '.')`, collecting names and paths in
two parallel lists; the recursive call in the loop body is commented
out in the source, so only one level is listed.  `exploreStep` is the
body of the loop `foo` (lines 63–74), appending the derived name and
path of one child (a package-only scan keeps only `is_pkg` children). -/
def exploreStep (cfg : Cfg) (module_name : String) (only_packages : Bool)
    (acc : List String × List String) (e : String × Bool) : List String × List String :=
  let mod_path := entryPath module_name e.1
  let mod_name := entryName cfg module_name e.1
  if only_packages then
    if e.2 then (acc.1 ++ [mod_name], acc.2 ++ [mod_path]) else acc
  else
    (acc.1 ++ [mod_name], acc.2 ++ [mod_path])

def explore_package (cfg : Cfg) (module_name : String) (only_packages : Bool) :
    List String × List String :=
  (cfg.fsChildren module_name).foldl (exploreStep cfg module_name only_packages) ([], [])

/-- Accumulator of the ordering pass of `import_modules` (lines
98–116): the two ordered lists plus the two integer indices
`temp_index` (starts at 0) and `i` (starts at -1). -/
structure OrderAcc where
  onames : List String
  opaths : List String
  tempIndex : Int
  i : Int
  deriving Repr

/-- One scan of the discovered `(n, p)` pairs for a single hint `o`
(the inner loop of lines 102–115).  An exact match appends to both
lists and sets `temp_index = i` after incrementing `i`; a suffix match
inserts at `temp_index + 1` into both lists — the source inserts the
NAME `n` into `ordered_paths` as well — and increments `temp_index`; a
substring match appends `(n, p)` to both lists. -/
def orderScan (o : String) (acc : OrderAcc) (np : String × String) : OrderAcc :=
  let n := np.1
  let p := np.2
  if n == o then
    let i := acc.i + 1
    { onames := acc.onames ++ [n], opaths := acc.opaths ++ [p], tempIndex := i, i := i }
  else if pyEndsWith n o then
    { onames := pyInsert acc.onames (acc.tempIndex + 1) n,
      opaths := pyInsert acc.opaths (acc.tempIndex + 1) n,
      tempIndex := acc.tempIndex + 1, i := acc.i }
  else if strIn o n then
    { acc with onames := acc.onames ++ [n], opaths := acc.opaths ++ [p] }
  else
    acc

/-- The ordering phase of `import_modules` (lines 98–123): run the scan
for every hint, extend both lists with the original discovery lists,
then deduplicate the name list and the path list independently, keeping
first occurrences. -/
def order_lists (order : List String) (names paths : List String) :
    List String × List String :=
  let fin := order.foldl (fun acc o => (names.zip paths).foldl (orderScan o) acc)
    ⟨[], [], 0, -1⟩
  (dedupFirst (fin.onames ++ names), dedupFirst (fin.opaths ++ paths))

/-- `tpQtLib._import_module(package_name)` (lines 80–93): call
`importlib.import_module`; on success log at debug and return the
module; on `ImportError` or `AttributeError` log at debug and return
`None`; any other exception propagates. -/
def import_module (cfg : Cfg) (st : St) (package_name : String) :
    Except PyExn (St × Option PyModule) :=
  match cfg.env package_name with
  | .ok m =>
    .ok ({ st with log := st.log ++ [(.debug, "Imported: " ++ package_name)] }, some m)
  | .caught =>
    .ok ({ st with log := st.log ++ [(.debug, "FAILED IMPORT: " ++ package_name)] }, none)
  | .fatal => .error package_name

/-- One iteration of the import loop of `import_modules` (lines
131–137): skip a name already in `loaded_modules`; otherwise attempt
the import and, when a module object is returned, assign
`loaded_modules[mod.__name__] = [dirname(mod.__file__), mod]` and
append the handle to `reload_modules`. -/
def importStep (cfg : Cfg) (st : St) (name : String) : Except PyExn St :=
  if containsKey st.loaded_modules name then .ok st
  else
    match import_module cfg st name with
    | .error e => .error e
    | .ok (st1, some m) =>
      .ok { st1 with
              loaded_modules := odSet st1.loaded_modules m.name (m.fileDir, m),
              writes := st1.writes ++ [(m.name, m)],
              reload_modules := st1.reload_modules ++ [m] }
    | .ok (st1, none) => .ok st1

/-- The import loop of `import_modules` (lines 131–137):
`for name, _ in zip(module_names, module_paths)` — the loop walks the
zip of the two deduplicated lists, so it is truncated to the shorter
one. -/
def importPhase (cfg : Cfg) (st : St) (module_names module_paths : List String) :
    Except PyExn St :=
  exceptFold (importStep cfg) st ((module_names.zip module_paths).map Prod.fst)

/-- Modelled from the spec's import step, as amended: walk the
deduplicated ordered names one by one; a name already present in the
registry is skipped; otherwise exactly one import attempt is made —
a caught failure is logged at debug severity and processing continues,
an uncaught exception propagates, and on success a record keyed by the
module handle's own name (the qualified name whenever the handle
reports its import name) mapping to (module file directory, handle) is
assigned and the handle is appended to the reload queue. -/
def import_step_spec (cfg : Cfg) (st : St) (name : String) : Except PyExn St :=
  if containsKey st.loaded_modules name then .ok st
  else
    match cfg.env name with
    | .ok m =>
      .ok { st with
              log := st.log ++ [(.debug, "Imported: " ++ name)],
              loaded_modules := odSet st.loaded_modules m.name (m.fileDir, m),
              writes := st.writes ++ [(m.name, m)],
              reload_modules := st.reload_modules ++ [m] }
    | .caught => .ok { st with log := st.log ++ [(.debug, "FAILED IMPORT: " ++ name)] }
    | .fatal => .error name

/-- Modelled from the spec's import step, as amended: the whole import
pass is the fallible fold of `import_step_spec` over the deduplicated
ordered name list. -/
def import_phase_spec (cfg : Cfg) (st : St) (names : List String) : Except PyExn St :=
  exceptFold (import_step_spec cfg) st names

/-- The order hint used for the recursive call on one `(name, path)`
pair (lines 139–144): the `order` attribute of the registered module
for `name` when present, `[]` otherwise. -/
def childOrder (st : St) (name : String) : List String :=
  match regGet st.loaded_modules name with
  | some (_, m) => match m.order with | some o => o | none => []
  | none => []

/-- `tpQtLib.import_modules(module_name, only_packages, order)` (lines
95–145), with explicit recursion fuel (the source recurses until the
filesystem runs out of children; fuel 0 models a cut-off of that
descent): explore, order, import, then recurse on every entry of the
zipped deduplicated lists with `only_packages=False` and the child's
hint. -/
def import_modules (cfg : Cfg) : Nat → St → String → Bool → List String →
    Except PyExn St
  | 0, st, _, _, _ => .ok st
  | fuel + 1, st, module_name, only_packages, order =>
    let np := explore_package cfg module_name only_packages
    let mnp := order_lists order np.1 np.2
    match importPhase cfg st mnp.1 mnp.2 with
    | .error e => .error e
    | .ok st1 =>
      exceptFold
        (fun st2 pair =>
          import_modules cfg fuel st2 pair.2 false (childOrder st2 pair.1))
        st1 (mnp.1.zip mnp.2)

/-- The body of the loop of `reload_all` (lines 157–162): re-execute
(`reload(mod)`) a module without a `no_reload` attribute — recorded in
the trace component — and log the skipped ones. -/
def reloadStep (acc : St × List PyModule) (m : PyModule) : St × List PyModule :=
  if !m.noReload then
    ({ acc.1 with log := acc.1.log ++ [(.debug, "RELOADING: " ++ m.name)] },
      acc.2 ++ [m])
  else
    ({ acc.1 with log := acc.1.log ++ [(.debug, "AVOIDING RELOAD OF " ++ m.name)] },
      acc.2)

/-- `tpQtLib.reload_all()` (lines 147–163): walk `reload_modules` in
order, re-executing every module without a `no_reload` attribute;
returns the updated state and the list of modules actually re-executed,
in order. -/
def reload_all (st : St) : St × List PyModule :=
  let st0 := { st with log := st.log ++ [(.debug, " =========> Reloading tpQtLib ...")] }
  let fin := st.reload_modules.foldl reloadStep (st0, [])
  ({ fin.1 with log := fin.1.log ++ [(.debug, " =========> tpQtLib reloaded successfully!")] },
    fin.2)

/-- `tpQtLib.create_logger()` (lines 39–48): installs the process
logger (level WARNING) and emits one debug record. -/
def create_logger (st : St) : St :=
  { st with log := st.log ++ [(.debug, "Initializing tpQtLib logger ...")] }

/-- `tpQtLib.initialize()` (lines 30–37): create the logger, import the
root package tree with `only_packages=True` and hint
`['tpQtLib.core']`, then reload everything queued; returns the final
state and the reload trace. -/
def initRun (cfg : Cfg) (fuel : Nat) (st : St) : Except PyExn (St × List PyModule) :=
  let st0 := create_logger st
  match import_modules cfg fuel st0 cfg.tpRoot true ["tpQtLib.core"] with
  | .error e => .error e
  | .ok st1 => .ok (reload_all st1)

/-! ### The resource loader (`source/tpQtLib/core/resource.py`) -/

/-- What the filesystem holds at a path, as `os.path` predicates see
it: nothing, a regular file, or a directory. -/
inductive FileKind where
  | missing
  | file
  | dir
  deriving DecidableEq, Repr

/-- `Resource.generate_resources_file(generate_qr_file,
resources_folder)` (lines 31–60): when the argument is `None` or not a
directory, fall back to `cls.RESOURCES_FOLDER`; raise `RuntimeError`
when the effective folder does not exist; the remaining body delegates
to the external `folder`/`qtutils` helpers (modelled as plain
success). -/
def generate_resources_file (fsq : String → FileKind) (clsResourcesFolder : String)
    (generate_qr_file : Bool) (resources_folder : Option String) : Except String Unit :=
  let folder :=
    match resources_folder with
    | none => clsResourcesFolder
    | some f => if fsq f = .dir then f else clsResourcesFolder
  if fsq folder = .missing then
    .error ("Resources folder " ++ folder ++ " does not exists!")
  else
    .ok ()

/-- The effective resources folder `generate_resources_file` operates
on after the fallback of lines 41–42: the argument when it names an
existing directory, `cls.RESOURCES_FOLDER` otherwise. -/
def effectiveResourcesFolder (fsq : String → FileKind) (clsResourcesFolder : String)
    (resources_folder : Option String) : String :=
  match resources_folder with
  | none => clsResourcesFolder
  | some f => if fsq f = .dir then f else clsResourcesFolder

/-! ### Concrete runs used by witnesses and counterexamples -/

/-- The empty process state at interpreter startup. -/
def stEmpty : St := ⟨[], [], [], []⟩

/-- A module of the demonstration tree: `tpQtLib.core`, which declares
`order = ['dialog']` for its children. -/
def coreMod : PyModule :=
  { name := "tpQtLib.core", fileDir := "TP//core", order := some ["dialog"], noReload := false }

/-- A module of the demonstration tree: `tpQtLib.widgets`, which has a
`no_reload` attribute. -/
def widgetsMod : PyModule :=
  { name := "tpQtLib.widgets", fileDir := "TP//widgets", order := none, noReload := true }

/-- A module of the demonstration tree: `tpQtLib.core.dialog`. -/
def dialogMod : PyModule :=
  { name := "tpQtLib.core.dialog", fileDir := "TP//core", order := none, noReload := false }

/-- A module whose `__name__` differs from the qualified name it is
imported under (Python modules may rebind `__name__` at top level). -/
def weirdMod : PyModule :=
  { name := "tpQtLib.other", fileDir := "TP//weird", order := none, noReload := false }

/-- A small concrete world on a backslash-separator platform: the root
package `TP` holds packages `core` and `widgets`, `core` holds the leaf
module `dialog`; `tpQtLib.bad` raises an uncaught exception when
imported, `tpQtLib.weird` imports to a handle named `tpQtLib.other`,
and every other name raises `ImportError`. -/
def demoCfg : Cfg where
  sep := '\\'
  fsChildren := fun d =>
    if d = "TP" then [("core", true), ("widgets", true)]
    else if d = "TP//core" then [("dialog", false)]
    else []
  env := fun n =>
    if n = "tpQtLib.core" then .ok coreMod
    else if n = "tpQtLib.widgets" then .ok widgetsMod
    else if n = "tpQtLib.core.dialog" then .ok dialogMod
    else if n = "tpQtLib.bad" then .fatal
    else if n = "tpQtLib.weird" then .ok weirdMod
    else .caught
  tpRoot := "TP"

/-- The same world on a forward-slash-separator platform. -/
def posixCfg : Cfg :=
  { demoCfg with sep := '/' }

/-! ### Helper lemmas -/

theorem exceptFold_congr {f g : St → α → Except PyExn St}
    (h : ∀ st a, f st a = g st a) :
    ∀ (l : List α) (st : St), exceptFold f st l = exceptFold g st l := by
  intro l
  induction l with
  | nil => intro st; rfl
  | cons a t ih =>
    intro st
    simp only [exceptFold, h st a]
    cases g st a with
    | error e => rfl
    | ok st' => exact ih st'

theorem exceptFold_rel {f : St → α → Except PyExn St} (R : St → St → Prop)
    (hre : ∀ st, R st st)
    (htr : ∀ {a b c : St}, R a b → R b c → R a c)
    (hstep : ∀ st x st', f st x = .ok st' → R st st') :
    ∀ (l : List α) (st st' : St), exceptFold f st l = .ok st' → R st st' := by
  intro l
  induction l with
  | nil =>
    intro st st' h
    simp only [exceptFold] at h
    cases h
    exact hre st
  | cons a t ih =>
    intro st st' h
    simp only [exceptFold] at h
    cases hfa : f st a with
    | error e => rw [hfa] at h; cases h
    | ok st1 =>
      rw [hfa] at h
      exact htr (hstep st a st1 hfa) (ih st1 st' h)

theorem regKeys_odSet (d : List (String × String × PyModule)) (k : String)
    (v : String × PyModule) :
    regKeys (odSet d k v) = if containsKey d k then regKeys d else regKeys d ++ [k] := by
  unfold odSet
  by_cases h : containsKey d k
  · simp only [h, if_true]
    unfold regKeys
    rw [List.map_map]
    apply List.map_congr_left
    intro e _
    by_cases he : e.1 = k
    · simp [he]
    · simp [he]
  · simp [h, regKeys]

theorem odSet_nodup (d : List (String × String × PyModule)) (k : String)
    (v : String × PyModule) (h : (regKeys d).Nodup) :
    (regKeys (odSet d k v)).Nodup := by
  rw [regKeys_odSet]
  by_cases hc : containsKey d k
  · simpa [hc] using h
  · have hk : k ∉ regKeys d := by
      have : ((regKeys d).contains k) = false := by
        simpa [containsKey] using hc
      simpa using this
    simp [hc, List.nodup_append, h, hk]

/-- The monotone evolution relation the bootstrapper's state obeys: the
write trace only grows, the reload queue grows by exactly the handles
of the new writes (in order), every write is keyed by the handle's own
name, and uniqueness of registry keys is preserved. -/
def StEvol (st st' : St) : Prop :=
  (∃ w, st'.writes = st.writes ++ w
      ∧ st'.reload_modules = st.reload_modules ++ w.map Prod.snd
      ∧ ∀ e ∈ w, e.1 = e.2.name)
  ∧ ((regKeys st.loaded_modules).Nodup → (regKeys st'.loaded_modules).Nodup)

theorem stEvol_refl (st : St) : StEvol st st :=
  ⟨⟨[], by simp, by simp, by simp⟩, id⟩

theorem stEvol_trans {a b c : St} (h1 : StEvol a b) (h2 : StEvol b c) : StEvol a c := by
  obtain ⟨⟨w1, hw1, hr1, hk1⟩, hn1⟩ := h1
  obtain ⟨⟨w2, hw2, hr2, hk2⟩, hn2⟩ := h2
  refine ⟨⟨w1 ++ w2, ?_, ?_, ?_⟩, fun h => hn2 (hn1 h)⟩
  · rw [hw2, hw1, List.append_assoc]
  · rw [hr2, hr1, List.map_append, List.append_assoc]
  · intro e he
    rcases List.mem_append.mp he with h | h
    · exact hk1 e h
    · exact hk2 e h

theorem importStep_evol (cfg : Cfg) (st : St) (n : String) (st' : St)
    (h : importStep cfg st n = .ok st') : StEvol st st' := by
  unfold importStep import_module at h
  by_cases hc : containsKey st.loaded_modules n
  · rw [if_pos hc] at h
    cases h
    exact stEvol_refl st
  · rw [if_neg hc] at h
    cases he : cfg.env n with
    | ok m =>
      rw [he] at h
      simp only [Except.ok.injEq] at h
      subst h
      refine ⟨⟨[(m.name, m)], by simp, by simp, by simp⟩, fun hn => ?_⟩
      exact odSet_nodup _ _ _ hn
    | caught =>
      rw [he] at h
      simp only [Except.ok.injEq] at h
      subst h
      exact ⟨⟨[], by simp, by simp, by simp⟩, id⟩
    | fatal =>
      rw [he] at h
      cases h

theorem importPhase_evol (cfg : Cfg) (st : St) (mns mps : List String) (st' : St)
    (h : importPhase cfg st mns mps = .ok st') : StEvol st st' := by
  unfold importPhase at h
  exact exceptFold_rel StEvol stEvol_refl stEvol_trans
    (fun a b c hc => importStep_evol cfg a b c hc) _ st st' h

theorem import_modules_evol (cfg : Cfg) :
    ∀ (fuel : Nat) (st : St) (mn : String) (op : Bool) (ord : List String) (st' : St),
      import_modules cfg fuel st mn op ord = .ok st' → StEvol st st' := by
  intro fuel
  induction fuel with
  | zero =>
    intro st mn op ord st' h
    simp only [import_modules] at h
    cases h
    exact stEvol_refl st
  | succ f ih =>
    intro st mn op ord st' h
    simp only [import_modules] at h
    cases hip : importPhase cfg st (order_lists ord (explore_package cfg mn op).1
        (explore_package cfg mn op).2).1 (order_lists ord (explore_package cfg mn op).1
        (explore_package cfg mn op).2).2 with
    | error e => rw [hip] at h; cases h
    | ok st1 =>
      rw [hip] at h
      refine stEvol_trans (importPhase_evol cfg st _ _ st1 hip) ?_
      exact exceptFold_rel StEvol stEvol_refl stEvol_trans
        (fun a b c hc => ih a b.2 false (childOrder a b.1) c hc) _ st1 st' h

theorem reload_fold_spec :
    ∀ (l : List PyModule) (acc : St × List PyModule),
      (l.foldl reloadStep acc).1.loaded_modules = acc.1.loaded_modules
      ∧ (l.foldl reloadStep acc).1.reload_modules = acc.1.reload_modules
      ∧ (l.foldl reloadStep acc).1.writes = acc.1.writes
      ∧ (l.foldl reloadStep acc).2 = acc.2 ++ l.filter (fun m => !m.noReload) := by
  intro l
  induction l with
  | nil => intro acc; simp
  | cons m t ih =>
    intro acc
    simp only [List.foldl_cons, List.filter_cons]
    by_cases hm : (!m.noReload) = true
    · have := ih (reloadStep acc m)
      simp only [reloadStep, hm, if_true] at this ⊢
      obtain ⟨h1, h2, h3, h4⟩ := this
      exact ⟨h1, h2, h3, by rw [h4]; simp⟩
    · have := ih (reloadStep acc m)
      simp only [reloadStep, hm, if_false] at this ⊢
      obtain ⟨h1, h2, h3, h4⟩ := this
      exact ⟨h1, h2, h3, by rw [h4]; simp⟩

theorem reload_all_spec (st : St) :
    (reload_all st).2 = st.reload_modules.filter (fun m => !m.noReload)
    ∧ (reload_all st).1.loaded_modules = st.loaded_modules
    ∧ (reload_all st).1.reload_modules = st.reload_modules := by
  unfold reload_all
  obtain ⟨h1, h2, h3, h4⟩ := reload_fold_spec st.reload_modules
    ({ st with log := st.log ++ [(.debug, " =========> Reloading tpQtLib ...")] }, [])
  exact ⟨by simpa using h4, by simpa using h1, by simpa using h2⟩

/-! ### Claim theorems -/

/-- C7: `reload_all` re-executes the reload-queue handles in their
original import order, skipping exactly the modules that expose the
`no_reload` marker; a skipped module is not re-executed while the
registry (and the queue itself) are left unchanged. -/
theorem c7_reload_order_and_skips (st : St) :
    (reload_all st).2 = st.reload_modules.filter (fun m => !m.noReload)
    ∧ (reload_all st).1.loaded_modules = st.loaded_modules
    ∧ (reload_all st).1.reload_modules = st.reload_modules
    ∧ (∀ m ∈ st.reload_modules, m.noReload = true → m ∉ (reload_all st).2) := by
  obtain ⟨h1, h2, h3⟩ := reload_all_spec st
  refine ⟨h1, h2, h3, ?_⟩
  intro m _ hm hmem
  rw [h1] at hmem
  have := (List.mem_filter.mp hmem).2
  simp [hm] at this

/-- C8: whenever the effective resources folder of
`generate_resources_file` is missing from the filesystem, the call
raises `RuntimeError` instead of degrading to a no-op. -/
theorem c8_missing_resources_folder_raises (fsq : String → FileKind)
    (cls : String) (gen : Bool) (arg : Option String)
    (h : fsq (effectiveResourcesFolder fsq cls arg) = .missing) :
    generate_resources_file fsq cls gen arg
      = .error ("Resources folder " ++ effectiveResourcesFolder fsq cls arg
          ++ " does not exists!") := by
  unfold generate_resources_file
  unfold effectiveResourcesFolder at h ⊢
  cases arg with
  | none => simp [h]
  | some f =>
    by_cases hf : fsq f = .dir
    · simp only [hf, if_true] at h ⊢
      simp [h]
    · simp only [hf, if_false] at h ⊢
      simp [h]

/-- C8 witness: with an empty filesystem and no argument the effective
folder is the class default and the call errors. -/
theorem c8_witness :
    (fun _ => FileKind.missing : String → FileKind)
        (effectiveResourcesFolder (fun _ => FileKind.missing) "RES" none) = .missing
    ∧ generate_resources_file (fun _ => FileKind.missing) "RES" true none
      = .error ("Resources folder "
          ++ effectiveResourcesFolder (fun _ => FileKind.missing) "RES" none
          ++ " does not exists!") :=
  ⟨rfl, c8_missing_resources_folder_raises (fun _ => FileKind.missing) "RES" true none rfl⟩

/-- C4: an import failure of a caught class (ImportError or
AttributeError) is swallowed: the step only appends a debug-severity
log record — the registry, the reload queue and the write trace are
untouched, so the failed name is never added — and the loop continues
with the remaining names. -/
theorem c4_caught_import_swallowed (cfg : Cfg) (st : St) (name p : String)
    (rest ps : List String)
    (h1 : cfg.env name = .caught)
    (h2 : containsKey st.loaded_modules name = false) :
    importStep cfg st name
      = .ok { st with log := st.log ++ [(.debug, "FAILED IMPORT: " ++ name)] }
    ∧ importPhase cfg st (name :: rest) (p :: ps)
      = importPhase cfg { st with log := st.log ++ [(.debug, "FAILED IMPORT: " ++ name)] }
          rest ps := by
  have hstep : importStep cfg st name
      = .ok { st with log := st.log ++ [(.debug, "FAILED IMPORT: " ++ name)] } := by
    unfold importStep import_module
    simp [h1, h2]
  refine ⟨hstep, ?_⟩
  unfold importPhase
  simp only [List.zip_cons_cons, List.map_cons, exceptFold, hstep]
  rfl

/-- C4 witness: importing the unavailable name `tpQtLib.nope` in the
demonstration world only logs a debug record and processing goes on. -/
theorem c4_witness :
    demoCfg.env "tpQtLib.nope" = .caught
    ∧ containsKey stEmpty.loaded_modules "tpQtLib.nope" = false
    ∧ importStep demoCfg stEmpty "tpQtLib.nope"
      = .ok { stEmpty with
                log := stEmpty.log ++ [(.debug, "FAILED IMPORT: " ++ "tpQtLib.nope")] } :=
  ⟨rfl, rfl,
    (c4_caught_import_swallowed demoCfg stEmpty "tpQtLib.nope" "P" [] [] rfl rfl).1⟩

/-- C9: the import phase catches exactly ImportError and
AttributeError; any other exception raised while importing a module
propagates out of `_import_module`, out of the import loop (aborting
the remaining names), and out of the top-level entry point (so the
reload phase never runs). -/
theorem c9_uncaught_exception_propagates (cfg : Cfg) (st : St) (name p : String)
    (rest ps : List String)
    (h1 : cfg.env name = .fatal)
    (h2 : containsKey st.loaded_modules name = false) :
    import_module cfg st name = .error name
    ∧ importStep cfg st name = .error name
    ∧ importPhase cfg st (name :: rest) (p :: ps) = .error name
    ∧ (∀ (fuel : Nat) (st' : St) (e : PyExn),
        import_modules cfg fuel (create_logger st') cfg.tpRoot true ["tpQtLib.core"]
          = .error e
        → initRun cfg fuel st' = .error e) := by
  have hmod : import_module cfg st name = .error name := by
    unfold import_module
    rw [h1]
  have hstep : importStep cfg st name = .error name := by
    unfold importStep
    simp [h2, hmod]
  refine ⟨hmod, hstep, ?_, ?_⟩
  · unfold importPhase
    simp only [List.zip_cons_cons, List.map_cons, exceptFold, hstep]
  · intro fuel st' e he
    have hrun : initRun cfg fuel st'
        = (match import_modules cfg fuel (create_logger st') cfg.tpRoot true
              ["tpQtLib.core"] with
           | .error er => .error er
           | .ok st1 => .ok (reload_all st1)) := rfl
    rw [hrun, he]

/-- C9 witness: importing `tpQtLib.bad` (whose import raises an
uncaught exception in the demonstration world) aborts the phase. -/
theorem c9_witness :
    demoCfg.env "tpQtLib.bad" = .fatal
    ∧ containsKey stEmpty.loaded_modules "tpQtLib.bad" = false
    ∧ importPhase demoCfg stEmpty ["tpQtLib.bad", "tpQtLib.core"] ["P", "Q"]
      = .error "tpQtLib.bad" :=
  ⟨rfl, rfl,
    (c9_uncaught_exception_propagates demoCfg stEmpty "tpQtLib.bad" "P"
      ["tpQtLib.core"] ["Q"] rfl rfl).2.2.1⟩

/-- C10: a successful import assigns the registry record under the
imported handle's own `__name__` (not necessarily the discovered
qualified name used for the membership check) and appends the handle to
the reload queue in the same step, so across a whole import pass the
reload queue gains exactly one handle per registry assignment, in
assignment order. -/
theorem c10_registry_keyed_by_module_name (cfg : Cfg) (st : St) (name : String)
    (m : PyModule)
    (h1 : cfg.env name = .ok m)
    (h2 : containsKey st.loaded_modules name = false) :
    importStep cfg st name
      = .ok { st with
                log := st.log ++ [(.debug, "Imported: " ++ name)],
                loaded_modules := odSet st.loaded_modules m.name (m.fileDir, m),
                writes := st.writes ++ [(m.name, m)],
                reload_modules := st.reload_modules ++ [m] }
    ∧ (∀ (mns mps : List String) (st' : St),
        importPhase cfg st mns mps = .ok st'
        → ∃ w, st'.writes = st.writes ++ w
            ∧ st'.reload_modules = st.reload_modules ++ w.map Prod.snd
            ∧ ∀ e ∈ w, e.1 = e.2.name) := by
  constructor
  · unfold importStep import_module
    simp [h1, h2]
  · intro mns mps st' h
    exact (importPhase_evol cfg st mns mps st' h).1

/-- C10 witness: `tpQtLib.weird` imports to a handle whose `__name__`
is `tpQtLib.other`, and the record is created under the latter. -/
theorem c10_witness :
    demoCfg.env "tpQtLib.weird" = .ok weirdMod
    ∧ containsKey stEmpty.loaded_modules "tpQtLib.weird" = false
    ∧ weirdMod.name ≠ "tpQtLib.weird"
    ∧ importStep demoCfg stEmpty "tpQtLib.weird"
      = .ok { stEmpty with
                log := stEmpty.log ++ [(.debug, "Imported: " ++ "tpQtLib.weird")],
                loaded_modules :=
                  odSet stEmpty.loaded_modules weirdMod.name (weirdMod.fileDir, weirdMod),
                writes := stEmpty.writes ++ [(weirdMod.name, weirdMod)],
                reload_modules := stEmpty.reload_modules ++ [weirdMod] } :=
  ⟨rfl, rfl, by decide,
    (c10_registry_keyed_by_module_name demoCfg stEmpty "tpQtLib.weird" weirdMod rfl rfl).1⟩

theorem importStep_matches_spec (cfg : Cfg) (st : St) (n : String) :
    importStep cfg st n = import_step_spec cfg st n := by
  unfold importStep import_module import_step_spec
  by_cases hc : containsKey st.loaded_modules n
  · simp [hc]
  · simp only [hc, Bool.false_eq_true, if_false]
    cases cfg.env n <;> rfl

/-- C2 (amended): the import loop walks the zip of the deduplicated
name and path lists; whenever the name list is no longer than the path
list (which holds for discovery-generated inputs) it processes every
name exactly once, in order, skipping names already registered, logging
caught failures at debug, and on success assigning the record under the
imported handle's own name — the qualified name whenever the handle
reports its import name — and appending the handle to the reload queue
in import order: the loop coincides with the spec-side import pass. -/
theorem c2_import_pass_refines_spec (cfg : Cfg) (st : St) (mns mps : List String)
    (h : mns.length ≤ mps.length) :
    importPhase cfg st mns mps = import_phase_spec cfg st mns := by
  unfold importPhase import_phase_spec
  rw [List.map_fst_zip mns mps h]
  exact exceptFold_congr (fun st n => importStep_matches_spec cfg st n) mns st

/-- C2 witness: the refinement at a concrete one-element discovery. -/
theorem c2_witness :
    (["tpQtLib.core"] : List String).length ≤ (["TP//core"] : List String).length
    ∧ importPhase demoCfg stEmpty ["tpQtLib.core"] ["TP//core"]
      = import_phase_spec demoCfg stEmpty ["tpQtLib.core"] :=
  ⟨by decide,
    c2_import_pass_refines_spec demoCfg stEmpty ["tpQtLib.core"] ["TP//core"] (by decide)⟩

/-- The state produced by importing the discovered name
`tpQtLib.weird` (whose handle reports `__name__ = "tpQtLib.other"`). -/
def c2Run : Except PyExn St := importPhase demoCfg stEmpty ["tpQtLib.weird"] ["TP//weird"]

/-- The success state of `c2Run`. -/
def c2RunSt : St :=
  match c2Run with
  | .ok s => s
  | .error _ => stEmpty

/-- C2 counterexample: the import of the discovered qualified name
`tpQtLib.weird` succeeds — the handle is appended to the reload
queue — yet no registry record maps that qualified name; the record is
keyed `tpQtLib.other`, the handle's own `__name__`. -/
theorem c2_counterexample :
    importPhase demoCfg stEmpty ["tpQtLib.weird"] ["TP//weird"] = .ok c2RunSt
    ∧ c2RunSt.reload_modules = [weirdMod]
    ∧ containsKey c2RunSt.loaded_modules "tpQtLib.weird" = false
    ∧ regKeys c2RunSt.loaded_modules = ["tpQtLib.other"] :=
  ⟨rfl, rfl, rfl, rfl⟩

/-- C1: the ordering phase evaluated at hint `core` and the single
discovered pair `("tpQtLib.core", "TP//core")`: the suffix-match branch
(line 111 of the source) inserts the qualified name into
`ordered_paths`, so after independent deduplication the name list has
one entry while the path list has two — the result is not a correctly
paired, deduplicated list of (qualified_name, path) pairs. -/
theorem c1_ordering_mispairs_names_and_paths :
    order_lists ["core"] ["tpQtLib.core"] ["TP//core"]
      = (["tpQtLib.core"], ["tpQtLib.core", "TP//core"])
    ∧ (order_lists ["core"] ["tpQtLib.core"] ["TP//core"]).1.length
      ≠ (order_lists ["core"] ["tpQtLib.core"] ["TP//core"]).2.length :=
  ⟨rfl, by decide⟩

theorem string_eq_of_data {s t : String} (h : s.data = t.data) : s = t := by
  cases s
  cases t
  exact congrArg String.mk h

theorem replSlashes_no_slash (sep : Char) :
    ∀ (l : List Char), '/' ∉ l → replSlashes sep l = l := by
  intro l
  induction l with
  | nil => intro _; rfl
  | cons c t ih =>
    intro h
    have hc : c ≠ '/' := fun hh => h (hh ▸ List.mem_cons_self c t)
    have ht : '/' ∉ t := fun hh => h (List.mem_cons_of_mem c hh)
    cases t with
    | nil => rfl
    | cons c2 t2 =>
      simp only [replSlashes]
      rw [if_neg (fun hand => hc hand.1), ih ht]

theorem replSlashes_split (sep : Char) :
    ∀ (l r : List Char), '/' ∉ l →
      replSlashes sep (l ++ '/' :: '/' :: r) = l ++ sep :: replSlashes sep r := by
  intro l
  induction l with
  | nil =>
    intro r _
    simp [replSlashes]
  | cons c t ih =>
    intro r h
    have hc : c ≠ '/' := fun hh => h (hh ▸ List.mem_cons_self c t)
    have ht : '/' ∉ t := fun hh => h (List.mem_cons_of_mem c hh)
    cases t with
    | nil =>
      simp only [List.cons_append, List.nil_append, replSlashes]
      rw [if_neg (fun hand => hc hand.1)]
      simp [replSlashes]
    | cons c2 t2 =>
      have hres := ih r ht
      simp only [List.cons_append] at hres ⊢
      simp only [replSlashes]
      rw [if_neg (fun hand => hc hand.1), hres]

theorem map_no_backslash (l : List Char) (h : '\\' ∉ l) :
    l.map (fun c => if c = '\\' then '.' else c) = l := by
  induction l with
  | nil => rfl
  | cons c t ih =>
    have hc : c ≠ '\\' := fun hh => h (hh ▸ List.mem_cons_self c t)
    have ht : '\\' ∉ t := fun hh => h (List.mem_cons_of_mem c hh)
    simp only [List.map_cons, if_neg hc, ih ht]

theorem entryName_root_child (cfg : Cfg) (m : String)
    (h1 : '/' ∉ m.data) (h2 : '\\' ∉ m.data) :
    entryName cfg cfg.tpRoot m = "tpQtLib." ++ m := by
  unfold entryName pyRelpath strDropPre
  have hdata : (cfg.tpRoot ++ "//" ++ m).data = (cfg.tpRoot ++ "//").data ++ m.data := by
    rw [String.data_append]
  rw [hdata]
  have hpre : (cfg.tpRoot ++ "//").data.isPrefixOf ((cfg.tpRoot ++ "//").data ++ m.data)
      = true := by
    simp [List.isPrefixOf_iff_prefix]
  rw [if_pos hpre]
  simp only [List.drop_left]
  rw [replSlashes_no_slash cfg.sep m.data h1]
  unfold replBackslashDot
  apply string_eq_of_data
  rw [String.data_append, String.data_append]
  simp only [map_no_backslash m.data h2]

theorem joinSlashes_append_single :
    ∀ (x : List Char) (xs : List (List Char)) (y : List Char),
      joinSlashes ((x :: xs) ++ [y]) = joinSlashes (x :: xs) ++ '/' :: '/' :: y := by
  intro x xs
  induction xs generalizing x with
  | nil => intro y; rfl
  | cons x2 xs2 ih =>
    intro y
    have h1 : joinSlashes ((x :: x2 :: xs2) ++ [y])
        = x ++ '/' :: '/' :: joinSlashes ((x2 :: xs2) ++ [y]) := rfl
    have h2 : joinSlashes (x :: x2 :: xs2)
        = x ++ '/' :: '/' :: joinSlashes (x2 :: xs2) := rfl
    rw [h1, h2, ih x2 y]
    simp [List.append_assoc]

theorem replSlashes_joinSlashes (sep : Char) :
    ∀ (cs : List (List Char)), (∀ c ∈ cs, '/' ∉ c) →
      replSlashes sep (joinSlashes cs) = joinChar sep cs := by
  intro cs
  induction cs with
  | nil => intro _; rfl
  | cons c cs2 ih =>
    intro h
    cases cs2 with
    | nil => exact replSlashes_no_slash sep c (h c (List.mem_cons_self c []))
    | cons c2 cs3 =>
      have hc : '/' ∉ c := h c (List.mem_cons_self c (c2 :: cs3))
      have hrest : ∀ x ∈ c2 :: cs3, '/' ∉ x := fun x hx => h x (List.mem_cons_of_mem c hx)
      show replSlashes sep (c ++ '/' :: '/' :: joinSlashes (c2 :: cs3))
          = c ++ sep :: joinChar sep (c2 :: cs3)
      rw [replSlashes_split sep c _ hc, ih hrest]

theorem map_backslash_joinChar :
    ∀ (cs : List (List Char)), (∀ c ∈ cs, '\\' ∉ c) →
      (joinChar '\\' cs).map (fun c => if c = '\\' then '.' else c) = joinChar '.' cs := by
  intro cs
  induction cs with
  | nil => intro _; rfl
  | cons c cs2 ih =>
    intro h
    cases cs2 with
    | nil => exact map_no_backslash c (h c (List.mem_cons_self c []))
    | cons c2 cs3 =>
      have hc : '\\' ∉ c := h c (List.mem_cons_self c (c2 :: cs3))
      have hrest : ∀ x ∈ c2 :: cs3, '\\' ∉ x := fun x hx => h x (List.mem_cons_of_mem c hx)
      show (c ++ '\\' :: joinChar '\\' (c2 :: cs3)).map (fun c => if c = '\\' then '.' else c)
          = c ++ '.' :: joinChar '.' (c2 :: cs3)
      rw [List.map_append, List.map_cons, map_no_backslash c hc, ih hrest]
      simp

theorem entryName_deep (cfg : Cfg) (c m : String) (cs : List String)
    (hsep : cfg.sep = '\\')
    (hns : ∀ x ∈ c :: cs, '/' ∉ x.data ∧ '\\' ∉ x.data)
    (hm1 : '/' ∉ m.data) (hm2 : '\\' ∉ m.data) :
    entryName cfg (cfg.tpRoot ++ "//" ++ slashJoin (c :: cs)) m
      = "tpQtLib." ++ dotJoin ((c :: cs) ++ [m]) := by
  have hall_s : ∀ x ∈ (c.data :: cs.map String.data) ++ [m.data], '/' ∉ x := by
    intro x hx
    rcases List.mem_append.mp hx with hx | hx
    · rcases List.mem_cons.mp hx with hx | hx
      · rw [hx]; exact (hns c (List.mem_cons_self c cs)).1
      · obtain ⟨y, hy, hyx⟩ := List.mem_map.mp hx
        rw [← hyx]; exact (hns y (List.mem_cons_of_mem c hy)).1
    · rw [List.mem_singleton.mp hx]; exact hm1
  have hall_b : ∀ x ∈ (c.data :: cs.map String.data) ++ [m.data], '\\' ∉ x := by
    intro x hx
    rcases List.mem_append.mp hx with hx | hx
    · rcases List.mem_cons.mp hx with hx | hx
      · rw [hx]; exact (hns c (List.mem_cons_self c cs)).2
      · obtain ⟨y, hy, hyx⟩ := List.mem_map.mp hx
        rw [← hyx]; exact (hns y (List.mem_cons_of_mem c hy)).2
    · rw [List.mem_singleton.mp hx]; exact hm2
  unfold entryName pyRelpath strDropPre
  have hdata : (cfg.tpRoot ++ "//" ++ slashJoin (c :: cs) ++ "//" ++ m).data
      = (cfg.tpRoot ++ "//").data
        ++ joinSlashes ((c.data :: cs.map String.data) ++ [m.data]) := by
    rw [joinSlashes_append_single c.data (cs.map String.data) m.data]
    simp only [String.data_append, List.append_assoc]
    rfl
  rw [hdata]
  have hpre : (cfg.tpRoot ++ "//").data.isPrefixOf
      ((cfg.tpRoot ++ "//").data
        ++ joinSlashes ((c.data :: cs.map String.data) ++ [m.data])) = true := by
    simp [List.isPrefixOf_iff_prefix]
  rw [if_pos hpre]
  simp only [List.drop_left]
  rw [hsep, replSlashes_joinSlashes '\\' _ hall_s]
  unfold replBackslashDot
  apply string_eq_of_data
  simp only [String.data_append, map_backslash_joinChar _ hall_b]
  have hdots : (dotJoin ((c :: cs) ++ [m])).data
      = joinChar '.' ((c.data :: cs.map String.data) ++ [m.data]) := by
    simp [dotJoin, List.map_append]
  rw [hdots]

theorem exploreStep_fold (cfg : Cfg) (dir : String) (only : Bool) :
    ∀ (entries : List (String × Bool)) (acc : List String × List String),
      entries.foldl (exploreStep cfg dir only) acc
        = (acc.1 ++ ((if only then entries.filter (fun e => e.2) else entries).map
              (fun e => entryName cfg dir e.1)),
           acc.2 ++ ((if only then entries.filter (fun e => e.2) else entries).map
              (fun e => entryPath dir e.1))) := by
  intro entries
  induction entries with
  | nil => intro acc; simp
  | cons e t ih =>
    intro acc
    cases only with
    | false =>
      simp only [List.foldl_cons, if_false, Bool.false_eq_true]
      rw [ih]
      simp [exploreStep, List.append_assoc]
    | true =>
      by_cases he : e.2 = true
      · simp only [List.foldl_cons, if_true, List.filter_cons, he]
        rw [ih]
        simp [exploreStep, he, List.append_assoc]
      · simp only [List.foldl_cons, if_true, List.filter_cons, he]
        rw [ih]
        simp [exploreStep, he]

/-- C5 (amended): for any directory, the explorer returns exactly the
immediate children one level below it — only the `is_pkg` ones under a
packages-only scan, all of them otherwise — without recursing, with
each entry's name and path derived per child; the derived name equals
the dotted relative path from the configured root package for
immediate children of the root on any platform, and for directories
any number of levels below the root (every descendant directory is the
root followed by `"//"`-joined components) on platforms whose
separator is the backslash (the code only replaces backslashes by
dots). -/
theorem c5_explorer_immediate_children (cfg : Cfg) (dir : String) :
    (explore_package cfg dir true
       = (((cfg.fsChildren dir).filter (fun e => e.2)).map (fun e => entryName cfg dir e.1),
          ((cfg.fsChildren dir).filter (fun e => e.2)).map (fun e => entryPath dir e.1)))
    ∧ (explore_package cfg dir false
       = ((cfg.fsChildren dir).map (fun e => entryName cfg dir e.1),
          (cfg.fsChildren dir).map (fun e => entryPath dir e.1)))
    ∧ (∀ m : String, '/' ∉ m.data → '\\' ∉ m.data →
        entryName cfg cfg.tpRoot m = "tpQtLib." ++ m)
    ∧ (∀ (c m : String) (cs : List String), cfg.sep = '\\' →
        (∀ x ∈ c :: cs, '/' ∉ x.data ∧ '\\' ∉ x.data) →
        '/' ∉ m.data → '\\' ∉ m.data →
        entryName cfg (cfg.tpRoot ++ "//" ++ slashJoin (c :: cs)) m
          = "tpQtLib." ++ dotJoin ((c :: cs) ++ [m])) := by
  refine ⟨?_, ?_, ?_, ?_⟩
  · unfold explore_package
    rw [exploreStep_fold cfg dir true (cfg.fsChildren dir) ([], [])]
    simp
  · unfold explore_package
    rw [exploreStep_fold cfg dir false (cfg.fsChildren dir) ([], [])]
    simp
  · intro m h1 h2
    exact entryName_root_child cfg m h1 h2
  · intro c m cs hsep hns hm1 hm2
    exact entryName_deep cfg c m cs hsep hns hm1 hm2

/-- C5 counterexample: on a forward-slash platform, exploring the
depth-one directory `TP//core` yields the name `tpQtLib.core/dialog`
for the child `dialog` — not the dotted relative path
`tpQtLib.core.dialog` the claim requires, because only backslashes are
replaced by dots. -/
theorem c5_counterexample :
    explore_package posixCfg "TP//core" false
      = (["tpQtLib.core/dialog"], ["TP//core//dialog"])
    ∧ "tpQtLib.core/dialog" ≠ "tpQtLib.core.dialog" :=
  ⟨rfl, by decide⟩

/-- C5 witness: the derived names are the dotted relative paths for
the demonstration world (backslash separator), for an immediate child
of the root, a depth-two entry and a depth-three entry. -/
theorem c5_witness :
    ('/' ∉ "core".data ∧ '\\' ∉ "core".data ∧ '/' ∉ "dialog".data ∧ '\\' ∉ "dialog".data
      ∧ demoCfg.sep = '\\')
    ∧ entryName demoCfg demoCfg.tpRoot "core" = "tpQtLib." ++ "core"
    ∧ entryName demoCfg (demoCfg.tpRoot ++ "//" ++ slashJoin ["core"]) "dialog"
      = "tpQtLib." ++ dotJoin ["core", "dialog"]
    ∧ entryName demoCfg (demoCfg.tpRoot ++ "//" ++ slashJoin ["core", "sub"]) "leaf"
      = "tpQtLib." ++ dotJoin ["core", "sub", "leaf"]
    ∧ slashJoin ["core", "sub"] = "core//sub"
    ∧ "tpQtLib." ++ dotJoin ["core", "sub", "leaf"] = "tpQtLib.core.sub.leaf" :=
  ⟨by refine ⟨?_, ?_, ?_, ?_, rfl⟩ <;> decide,
    (c5_explorer_immediate_children demoCfg "TP").2.2.1 "core" (by decide) (by decide),
    (c5_explorer_immediate_children demoCfg "TP").2.2.2 "core" "dialog" [] rfl
      (by decide) (by decide) (by decide),
    (c5_explorer_immediate_children demoCfg "TP").2.2.2 "core" "leaf" ["sub"] rfl
      (by decide) (by decide) (by decide),
    by decide, by decide⟩

/-- The `tpQtLib.core` module of the C6 world, declaring
`order = ['sub']` for its children. -/
def c6Core : PyModule :=
  { name := "tpQtLib.core", fileDir := "TP//core", order := some ["sub"], noReload := false }

/-- The `tpQtLib.core.sub` package of the C6 world. -/
def c6Sub : PyModule :=
  { name := "tpQtLib.core.sub", fileDir := "TP//core//sub", order := none, noReload := false }

/-- The `tpQtLib.core.sub.leaf` module of the C6 world, importable
without error. -/
def c6Leaf : PyModule :=
  { name := "tpQtLib.core.sub.leaf", fileDir := "TP//core//sub", order := none,
    noReload := false }

/-- A world where the package `core` hints its child `sub` by suffix:
`TP` holds the package `core`, `core` holds the package `sub`, and
`sub` holds the importable leaf module `leaf`. -/
def c6Cfg : Cfg where
  sep := '\\'
  fsChildren := fun d =>
    if d = "TP" then [("core", true)]
    else if d = "TP//core" then [("sub", true)]
    else if d = "TP//core//sub" then [("leaf", false)]
    else []
  env := fun n =>
    if n = "tpQtLib.core" then .ok c6Core
    else if n = "tpQtLib.core.sub" then .ok c6Sub
    else if n = "tpQtLib.core.sub.leaf" then .ok c6Leaf
    else .caught
  tpRoot := "TP"

/-- The run of `import_modules` over the C6 world. -/
def c6Run : Except PyExn St := import_modules c6Cfg 4 stEmpty "TP" true []

/-- The success state of `c6Run`. -/
def c6St : St :=
  match c6Run with
  | .ok s => s
  | .error _ => stEmpty

/-- C6: in the C6 world the discovered pair under `core` is
`("tpQtLib.core.sub", "TP//core//sub")`, yet after the suffix hint
`sub` fires, the zipped deduplicated lists pair the name with itself,
so the recursion descends into the string `tpQtLib.core.sub` instead of
the filesystem path `TP//core//sub`: the importable module
`tpQtLib.core.sub.leaf` below that path is never reached, although
`tpQtLib.core.sub` itself was imported — contradicting the claim that
every discovered pair's path is recursively explored. -/
theorem c6_recursion_gets_name_not_path :
    explore_package c6Cfg "TP//core" false
      = (["tpQtLib.core.sub"], ["TP//core//sub"])
    ∧ order_lists ["sub"] ["tpQtLib.core.sub"] ["TP//core//sub"]
      = (["tpQtLib.core.sub"], ["tpQtLib.core.sub", "TP//core//sub"])
    ∧ c6Cfg.env "tpQtLib.core.sub.leaf" = .ok c6Leaf
    ∧ import_modules c6Cfg 4 stEmpty "TP" true [] = .ok c6St
    ∧ containsKey c6St.loaded_modules "tpQtLib.core.sub" = true
    ∧ containsKey c6St.loaded_modules "tpQtLib.core.sub.leaf" = false :=
  ⟨rfl, rfl, rfl, rfl, rfl, rfl⟩

/-- C3: registry keys stay duplicate-free through any run of the entry
point (the only registry mutation, `odSet`, preserves key uniqueness at
every intermediate point), a second invocation adds no duplicate keys,
the reload queue of the first run persists as an initial segment of the
second run's queue, and each invocation re-triggers the reload pass on
its full queue (so the second reload covers everything the first one
covered, in order). -/
theorem c3_registry_unique_and_reload_retriggered (cfg : Cfg) (fuel : Nat)
    (st0 st1 st2 : St) (tr1 tr2 : List PyModule)
    (h0 : (regKeys st0.loaded_modules).Nodup)
    (h1 : initRun cfg fuel st0 = .ok (st1, tr1))
    (h2 : initRun cfg fuel st1 = .ok (st2, tr2)) :
    (regKeys st1.loaded_modules).Nodup
    ∧ (regKeys st2.loaded_modules).Nodup
    ∧ (∃ t, st1.reload_modules ++ t = st2.reload_modules)
    ∧ tr1 = st1.reload_modules.filter (fun m => !m.noReload)
    ∧ tr2 = st2.reload_modules.filter (fun m => !m.noReload)
    ∧ (∃ t, tr1 ++ t = tr2)
    ∧ (∀ (d : List (String × String × PyModule)) (k : String) (v : String × PyModule),
        (regKeys d).Nodup → (regKeys (odSet d k v)).Nodup) := by
  have hrun : ∀ (sa sb : St) (tr : List PyModule),
      (regKeys sa.loaded_modules).Nodup →
      initRun cfg fuel sa = .ok (sb, tr) →
      (regKeys sb.loaded_modules).Nodup
      ∧ (∃ w, sb.reload_modules = sa.reload_modules ++ w)
      ∧ tr = sb.reload_modules.filter (fun m => !m.noReload) := by
    intro sa sb tr hnd hi
    have hi' : (match import_modules cfg fuel (create_logger sa) cfg.tpRoot true
          ["tpQtLib.core"] with
        | .error er => (.error er : Except PyExn (St × List PyModule))
        | .ok stm => .ok (reload_all stm)) = .ok (sb, tr) := hi
    cases him : import_modules cfg fuel (create_logger sa) cfg.tpRoot true
        ["tpQtLib.core"] with
    | error e => rw [him] at hi'; cases hi'
    | ok stm =>
      rw [him] at hi'
      simp only [Except.ok.injEq] at hi'
      obtain ⟨hA, hB, hC⟩ := reload_all_spec stm
      have hsb : sb = (reload_all stm).1 := by rw [hi']
      have htr : tr = (reload_all stm).2 := by rw [hi']
      have hev : StEvol (create_logger sa) stm :=
        import_modules_evol cfg fuel (create_logger sa) cfg.tpRoot true
          ["tpQtLib.core"] stm him
      have hload : (create_logger sa).loaded_modules = sa.loaded_modules := rfl
      have hrel : (create_logger sa).reload_modules = sa.reload_modules := rfl
      refine ⟨?_, ?_, ?_⟩
      · rw [hsb, hB]
        exact hev.2 (by rw [hload]; exact hnd)
      · obtain ⟨w, _, hw, _⟩ := hev.1
        rw [hrel] at hw
        exact ⟨w.map Prod.snd, by rw [hsb, hC, hw]⟩
      · rw [htr, hA, hsb, hC]
  obtain ⟨hn1, ⟨w1, hw1⟩, htr1⟩ := hrun st0 st1 tr1 h0 h1
  obtain ⟨hn2, ⟨w2, hw2⟩, htr2⟩ := hrun st1 st2 tr2 hn1 h2
  refine ⟨hn1, hn2, ⟨w2, hw2.symm⟩, htr1, htr2, ⟨w2.filter (fun m => !m.noReload), ?_⟩,
    fun d k v h => odSet_nodup d k v h⟩
  rw [htr1, htr2, hw2, List.filter_append]

/-- The first run of the entry point over the demonstration world. -/
def run1 : Except PyExn (St × List PyModule) := initRun demoCfg 3 stEmpty

/-- The final state of `run1`. -/
def run1St : St :=
  match run1 with
  | .ok p => p.1
  | .error _ => stEmpty

/-- The reload trace of `run1`. -/
def run1Tr : List PyModule :=
  match run1 with
  | .ok p => p.2
  | .error _ => []

/-- The second run of the entry point, from the state `run1` left. -/
def run2 : Except PyExn (St × List PyModule) := initRun demoCfg 3 run1St

/-- The final state of `run2`. -/
def run2St : St :=
  match run2 with
  | .ok p => p.1
  | .error _ => stEmpty

/-- The reload trace of `run2`. -/
def run2Tr : List PyModule :=
  match run2 with
  | .ok p => p.2
  | .error _ => []

/-- C3 witness: two consecutive runs of the entry point over the
demonstration world. -/
theorem c3_witness :
    (regKeys stEmpty.loaded_modules).Nodup
    ∧ ((regKeys run1St.loaded_modules).Nodup
       ∧ (regKeys run2St.loaded_modules).Nodup
       ∧ (∃ t, run1St.reload_modules ++ t = run2St.reload_modules)
       ∧ run1Tr = run1St.reload_modules.filter (fun m => !m.noReload)
       ∧ run2Tr = run2St.reload_modules.filter (fun m => !m.noReload)
       ∧ (∃ t, run1Tr ++ t = run2Tr)
       ∧ (∀ (d : List (String × String × PyModule)) (k : String) (v : String × PyModule),
           (regKeys d).Nodup → (regKeys (odSet d k v)).Nodup)) :=
  ⟨by simp [stEmpty, regKeys],
    c3_registry_unique_and_reload_retriggered demoCfg 3 stEmpty run1St run2St run1Tr run2Tr
      (by simp [stEmpty, regKeys]) rfl rfl⟩
